import Mathlib

/-!
Shallow embedding of the monthly load model generator
(`src/streamlit_app.py`) and proofs about it.

Real-valued quantities (loads, fractions, the noise draws) are embedded
as rationals; Python `round(x, 3)` is embedded as round-half-to-even on
rationals; the seeded Gaussian random source is abstracted as a stream
`noise : Nat -> Rat` of standard-normal draws determined by the seed,
consumed one draw per `rng.normal` call (`rng.normal(0, pct/100)` is
modelled as `pct/100 * noise k`, the linear scaling of a standard draw).
-/

namespace LoadModel

/-- Gregorian leap-year rule, as implemented by Python `datetime`. -/
def isLeap (y : ℕ) : Bool :=
  y % 4 == 0 && (y % 100 != 0 || y % 400 == 0)

/-- Number of days of month `m` (1-12) of year `y`, the Gregorian rule that
`datetime(year, month+1, 1) - datetime(year, month, 1)` (with December
rolling into next January, lines 51-55 of the source) computes. -/
def daysInMonth (y m : ℕ) : ℕ :=
  if m = 2 then (if isLeap y then 29 else 28)
  else if m = 4 ∨ m = 6 ∨ m = 9 ∨ m = 11 then 30
  else 31

/-- Days of year `y` strictly before month `m`. -/
def daysBeforeMonth (y : ℕ) : ℕ → ℕ
  | 0 => 0
  | 1 => 0
  | m + 1 => daysBeforeMonth y m + daysInMonth y m

/-- Number of leap years in `[1, n]`. -/
def leapCount (n : ℕ) : ℕ :=
  n / 4 - n / 100 + n / 400

/-- Days elapsed since 2000-01-01 (which was a Saturday), for years >= 2000. -/
def daysSince2000 (y m d : ℕ) : ℕ :=
  365 * (y - 2000) + (leapCount (y - 1) - leapCount 1999) + daysBeforeMonth y m + (d - 1)

/-- Weekday index with Monday = 0 (Python `date.weekday()` convention);
2000-01-01 was a Saturday, index 5. -/
def weekdayIndex (y m d : ℕ) : ℕ :=
  (daysSince2000 y m d + 5) % 7

/-- Full English weekday name, as Python `strftime("%A")` produces. -/
def weekdayNameOfIndex : ℕ → String
  | 0 => "Monday"
  | 1 => "Tuesday"
  | 2 => "Wednesday"
  | 3 => "Thursday"
  | 4 => "Friday"
  | 5 => "Saturday"
  | _ => "Sunday"

/-- An hourly timestamp inside a month. -/
structure Timestamp where
  year : ℕ
  month : ℕ
  day : ℕ
  hour : ℕ
  deriving DecidableEq, Repr

/-- Weekday name of a timestamp, Python `ts.strftime("%A")`. -/
def Timestamp.weekday (ts : Timestamp) : String :=
  weekdayNameOfIndex (weekdayIndex ts.year ts.month ts.day)

/-- The `k`-th hourly timestamp of month `(y, m)` (k = 0 is day 1, hour 0):
`start_date + k` hours of the source's `pd.date_range`. -/
def tsOfIndex (y m k : ℕ) : Timestamp :=
  ⟨y, m, k / 24 + 1, k % 24⟩

/-- The hourly timestamps of the month, from day 1 hour 0 through the last
day hour 23: `pd.date_range(start=datetime(y,m,1,0,0), end=nextMonth-1h,
freq="H")` (source lines 51-57). -/
def dateRange (y m : ℕ) : List Timestamp :=
  (List.range (daysInMonth y m * 24)).map (tsOfIndex y m)

/-- Successor hour of a timestamp (Gregorian +1 hour). -/
def nextHour (ts : Timestamp) : Timestamp :=
  if ts.hour < 23 then ⟨ts.year, ts.month, ts.day, ts.hour + 1⟩
  else if ts.day < daysInMonth ts.year ts.month then ⟨ts.year, ts.month, ts.day + 1, 0⟩
  else if ts.month < 12 then ⟨ts.year, ts.month + 1, 1, 0⟩
  else ⟨ts.year + 1, 1, 1, 0⟩

/-- Wall-clock time of day (Python `datetime.time`). -/
structure Time where
  hour : ℕ
  minute : ℕ
  second : ℕ
  deriving DecidableEq, Repr

/-- Seconds since midnight, `t.hour*3600 + t.minute*60 + t.second`
(source lines 78-79, 83). For times with in-range fields this order agrees
with Python's lexicographic comparison of `time` objects. -/
def Time.toSec (t : Time) : ℕ :=
  t.hour * 3600 + t.minute * 60 + t.second

/-- The generator's configuration (the sidebar values that reach the loop). -/
structure Config where
  year : ℕ
  month : ℕ
  operating_start : Time
  operating_end : Time
  weekdays : List String
  base_load : ℚ
  peak_load : ℚ
  random_pct : ℚ
  deriving DecidableEq

/-- Source lines 69-74: membership of a time of day in the operating window,
start inclusive and end exclusive, with the overnight branch when
`operating_start > operating_end`. -/
def inHours (s e t : Time) : Bool :=
  if s.toSec ≤ e.toSec then decide (s.toSec ≤ t.toSec) && decide (t.toSec < e.toSec)
  else decide (t.toSec ≥ s.toSec) || decide (t.toSec < e.toSec)

/-- Time of day of an hourly timestamp (`ts.time()`: minute = second = 0). -/
def Timestamp.timeOfDay (ts : Timestamp) : Time :=
  ⟨ts.hour, 0, 0⟩

/-- Source line 76: `is_operating_day and in_hours`. -/
def isOperating (cfg : Config) (ts : Timestamp) : Bool :=
  decide (ts.weekday ∈ cfg.weekdays) && inHours cfg.operating_start cfg.operating_end ts.timeOfDay

/-- End seconds, increased by 86400 when the window spans midnight
(source lines 81-82). -/
def endSecAdj (cfg : Config) : ℕ :=
  if cfg.operating_end.toSec ≤ cfg.operating_start.toSec
  then cfg.operating_end.toSec + 24 * 3600
  else cfg.operating_end.toSec

/-- Current seconds, increased by 86400 when the hour falls before the window
start (source lines 84-85). -/
def curSecAdj (cfg : Config) (ts : Timestamp) : ℕ :=
  if ts.timeOfDay.toSec < cfg.operating_start.toSec
  then ts.timeOfDay.toSec + 24 * 3600
  else ts.timeOfDay.toSec

/-- Triangular profile peaking at the window midpoint, source lines 77-93. -/
def triangularLoad (cfg : Config) (ts : Timestamp) : ℚ :=
  let startS : ℚ := cfg.operating_start.toSec
  let endS : ℚ := endSecAdj cfg
  let curS : ℚ := curSecAdj cfg ts
  let midpoint : ℚ := (startS + endS) / 2
  if curS ≤ midpoint then
    cfg.base_load + (cfg.peak_load - cfg.base_load) * ((curS - startS) / max (midpoint - startS) 1)
  else
    cfg.peak_load - (cfg.peak_load - cfg.base_load) * ((curS - midpoint) / max (endS - midpoint) 1)

/-- The pre-noise load of an hour: the triangular profile when operating,
else the flat base load (source lines 76-95). -/
def rawLoad (cfg : Config) (ts : Timestamp) : ℚ :=
  if isOperating cfg ts then triangularLoad cfg ts else cfg.base_load

/-- Round half to even on integers-scaled-by-candidate, Python `round`
tie-breaking: nearest integer to `x`, ties to the even integer. -/
def roundHalfEven (x : ℚ) : ℤ :=
  if x - ⌊x⌋ < 1 / 2 then ⌊x⌋
  else if x - ⌊x⌋ > 1 / 2 then ⌊x⌋ + 1
  else if ⌊x⌋ % 2 = 0 then ⌊x⌋ else ⌊x⌋ + 1

/-- Python `round(x, 3)`: round to the nearest multiple of 1/1000. -/
def round3 (x : ℚ) : ℚ :=
  (roundHalfEven (x * 1000) : ℚ) / 1000

/-- One emitted record (the dict appended at source lines 102-111). -/
structure Row where
  datetime : Timestamp
  year : ℕ
  month : ℕ
  day : ℕ
  hour : ℕ
  weekday : String
  operating : Bool
  load_kW : ℚ
  deriving DecidableEq

/-- Build the record for timestamp `ts` with final load `lkw`. -/
def mkRow (cfg : Config) (ts : Timestamp) (lkw : ℚ) : Row :=
  ⟨ts, ts.year, ts.month, ts.day, ts.hour, ts.weekday, isOperating cfg ts, round3 lkw⟩

/-- One iteration of the loop body for timestamp `ts`, with `k` the number of
draws consumed so far: applies the noise draw (advancing the source) only when
`random_pct > 0` (source lines 97-100), clamps at 0, and emits the row. -/
def step (cfg : Config) (noise : ℕ → ℚ) (ts : Timestamp) (k : ℕ) : Row × ℕ :=
  let load := rawLoad cfg ts
  if 0 < cfg.random_pct then
    let noiseVal := cfg.random_pct / 100 * noise k * load
    (mkRow cfg ts (max (load + noiseVal) 0), k + 1)
  else
    (mkRow cfg ts load, k)

/-- The loop over the month's timestamps, threading the count of consumed
draws (the state of the random source). -/
def genAux (cfg : Config) (noise : ℕ → ℚ) : List Timestamp → ℕ → List Row × ℕ
  | [], k => ([], k)
  | ts :: rest, k =>
      let p := step cfg noise ts k
      let q := genAux cfg noise rest p.2
      (p.1 :: q.1, q.2)

/-- Full run: rows plus the final number of consumed draws. -/
def generateFull (cfg : Config) (noise : ℕ → ℚ) : List Row × ℕ :=
  genAux cfg noise (dateRange cfg.year cfg.month) 0

/-- The emitted record sequence (the `rows` list / dataframe of the source). -/
def generate (cfg : Config) (noise : ℕ → ℚ) : List Row :=
  (generateFull cfg noise).1

/-! ## Definitions written from the spec's words, for comparison -/

/-- Spec-worded operating test (claim C2): weekday name in `operatingDays`
AND the window test — `start ≤ timeOfDay < end` when `start ≤ end`
(start inclusive, end exclusive), otherwise `timeOfDay ≥ start OR
timeOfDay < end`. -/
def operatingSpec (cfg : Config) (ts : Timestamp) : Bool :=
  decide (ts.weekday ∈ cfg.weekdays) &&
    (if cfg.operating_start.toSec ≤ cfg.operating_end.toSec then
      decide (cfg.operating_start.toSec ≤ ts.timeOfDay.toSec) &&
        decide (ts.timeOfDay.toSec < cfg.operating_end.toSec)
    else
      decide (ts.timeOfDay.toSec ≥ cfg.operating_start.toSec) ||
        decide (ts.timeOfDay.toSec < cfg.operating_end.toSec))

/-- Spec-worded pre-noise load formula (claim C1): with `curSec`, `startSec`,
`endSec` the seconds-since-midnight values (`endSec` increased by 86400 when
`endSec ≤ startSec`, `curSec` increased by 86400 when `curSec < startSec`)
and `midpoint = (startSec + endSec) / 2`, the load is
`baseLoad + (peakLoad - baseLoad) * ((curSec - startSec) / max (midpoint - startSec) 1)`
when `curSec ≤ midpoint`, and
`peakLoad - (peakLoad - baseLoad) * ((curSec - midpoint) / max (endSec - midpoint) 1)`
when `curSec > midpoint`. -/
def loadFormulaSpec (cfg : Config) (ts : Timestamp) : ℚ :=
  let startSec : ℚ := cfg.operating_start.toSec
  let endSec : ℚ :=
    if cfg.operating_end.toSec ≤ cfg.operating_start.toSec
    then (cfg.operating_end.toSec : ℚ) + 86400 else (cfg.operating_end.toSec : ℚ)
  let curSec : ℚ :=
    if ts.timeOfDay.toSec < cfg.operating_start.toSec
    then (ts.timeOfDay.toSec : ℚ) + 86400 else (ts.timeOfDay.toSec : ℚ)
  let midpoint : ℚ := (startSec + endSec) / 2
  if curSec ≤ midpoint then
    cfg.base_load + (cfg.peak_load - cfg.base_load) * ((curSec - startSec) / max (midpoint - startSec) 1)
  else
    cfg.peak_load - (cfg.peak_load - cfg.base_load) * ((curSec - midpoint) / max (endSec - midpoint) 1)

/-! ## Configuration validation (the sidebar widget bounds, source lines 28-45)

The streamlit widgets bound each input before any generation code runs:
year in [2000, 2100], month in [1, 12], loads ≥ 0, noise percent in
[0, 30], seed ≥ 0. A value outside its widget bounds is rejected by the
input layer, embedded here as a typed error returned before the loop. -/

/-- Raw (unvalidated) inputs as they arrive from the user-facing layer. -/
structure RawConfig where
  year : ℤ
  month : ℤ
  operating_start : Time
  operating_end : Time
  weekdays : List String
  base_load : ℚ
  peak_load : ℚ
  random_pct : ℚ
  seed : ℤ
  deriving DecidableEq

/-- Typed configuration errors. -/
inductive ConfigError where
  | invalidYear
  | invalidMonth
  | invalidLoad
  | invalidNoise
  | invalidSeed
  deriving DecidableEq

/-- Validation of the raw inputs against the widget bounds, in the order the
sidebar declares them (year, month, loads, noise percent, seed). -/
def validate (rc : RawConfig) : Except ConfigError Config :=
  if rc.year < 2000 ∨ 2100 < rc.year then .error .invalidYear
  else if rc.month < 1 ∨ 12 < rc.month then .error .invalidMonth
  else if rc.base_load < 0 then .error .invalidLoad
  else if rc.peak_load < 0 then .error .invalidLoad
  else if rc.random_pct < 0 ∨ 30 < rc.random_pct then .error .invalidNoise
  else if rc.seed < 0 then .error .invalidSeed
  else .ok ⟨rc.year.toNat, rc.month.toNat, rc.operating_start, rc.operating_end,
            rc.weekdays, rc.base_load, rc.peak_load, rc.random_pct⟩

/-- The pipeline: validation first, the hour-by-hour loop only on success. -/
def generateChecked (rc : RawConfig) (noise : ℕ → ℚ) : Except ConfigError (List Row) :=
  match validate rc with
  | .error err => .error err
  | .ok cfg => .ok (generate cfg noise)

/-! ## Concrete configurations used as witnesses -/

/-- All seven weekday names (the multiselect options, source line 37). -/
def allDays : List String :=
  ["Monday", "Tuesday", "Wednesday", "Thursday", "Friday", "Saturday", "Sunday"]

/-- The default operating days Monday-Friday (source line 38). -/
def weekdaysMF : List String :=
  ["Monday", "Tuesday", "Wednesday", "Thursday", "Friday"]

/-- January 2024, window 08:00-18:00, Monday-Friday, base 50, peak 150,
no noise (the app's default loads and window). -/
def cfgA : Config := ⟨2024, 1, ⟨8, 0, 0⟩, ⟨18, 0, 0⟩, weekdaysMF, 50, 150, 0⟩

/-- Same as `cfgA` with 5 percent noise. -/
def cfgP : Config := ⟨2024, 1, ⟨8, 0, 0⟩, ⟨18, 0, 0⟩, weekdaysMF, 50, 150, 5⟩

/-- Same as `cfgA` with a base load of 0.0002 kW, not a multiple of 0.001. -/
def cfgC : Config := ⟨2024, 1, ⟨8, 0, 0⟩, ⟨18, 0, 0⟩, weekdaysMF, 1 / 5000, 150, 0⟩

/-- January 2024 with `operating_end = operating_start` (08:00), all days. -/
def cfg7 : Config := ⟨2024, 1, ⟨8, 0, 0⟩, ⟨8, 0, 0⟩, allDays, 50, 150, 0⟩

/-- January 2024 with an overnight window 22:00-06:00, all days. -/
def cfgN : Config := ⟨2024, 1, ⟨22, 0, 0⟩, ⟨6, 0, 0⟩, allDays, 50, 150, 0⟩

/-- February 2024 (leap year), window 09:00-17:00, Monday-Friday. -/
def cfgFeb : Config := ⟨2024, 2, ⟨9, 0, 0⟩, ⟨17, 0, 0⟩, weekdaysMF, 10, 20, 0⟩

/-- The all-zeroes noise stream. -/
def noiseZero : ℕ → ℚ := fun _ => 0

/-- A nonzero noise stream. -/
def noiseOne : ℕ → ℚ := fun _ => 1

/-- A stream of huge negative draws (-1000 standard deviations). -/
def noiseNegBig : ℕ → ℚ := fun _ => -1000

/-- A raw configuration with an out-of-range month. -/
def rcBadMonth : RawConfig :=
  ⟨2024, 13, ⟨8, 0, 0⟩, ⟨18, 0, 0⟩, weekdaysMF, 50, 150, 5, 0⟩

/-! ## Structural lemmas about the loop -/

lemma step_snd (cfg : Config) (noise : ℕ → ℚ) (ts : Timestamp) (k : ℕ) :
    (step cfg noise ts k).2 = if 0 < cfg.random_pct then k + 1 else k := by
  simp only [step]
  split <;> rfl

lemma genAux_fst_length (cfg : Config) (noise : ℕ → ℚ) :
    ∀ (l : List Timestamp) (k : ℕ), (genAux cfg noise l k).1.length = l.length := by
  intro l
  induction l with
  | nil => intro k; rfl
  | cons ts rest ih => intro k; simp [genAux, ih]

lemma genAux_snd (cfg : Config) (noise : ℕ → ℚ) :
    ∀ (l : List Timestamp) (k : ℕ),
      (genAux cfg noise l k).2 = k + (if 0 < cfg.random_pct then l.length else 0) := by
  intro l
  induction l with
  | nil => intro k; simp [genAux]
  | cons ts rest ih =>
      intro k
      simp only [genAux, ih, step_snd, List.length_cons]
      split <;> omega

lemma genAux_get? (cfg : Config) (noise : ℕ → ℚ) :
    ∀ (l : List Timestamp) (k i : ℕ),
      (genAux cfg noise l k).1.get? i =
        (l.get? i).map (fun ts => (step cfg noise ts (k + if 0 < cfg.random_pct then i else 0)).1) := by
  intro l
  induction l with
  | nil => intro k i; simp [genAux]
  | cons ts rest ih =>
      intro k i
      cases i with
      | zero => simp [genAux]
      | succ j =>
          simp only [genAux, List.get?_cons_succ, ih, step_snd]
          split <;> [skip; rfl]
          have : k + 1 + j = k + (j + 1) := by omega
          rw [this]

lemma mem_genAux (cfg : Config) (noise : ℕ → ℚ) :
    ∀ (l : List Timestamp) (k : ℕ) (r : Row), r ∈ (genAux cfg noise l k).1 →
      ∃ ts ∈ l, ∃ k2, r = (step cfg noise ts k2).1 := by
  intro l
  induction l with
  | nil => intro k r h; simp [genAux] at h
  | cons ts rest ih =>
      intro k r h
      simp only [genAux, List.mem_cons] at h
      rcases h with h | h
      · exact ⟨ts, List.mem_cons_self .., k, h⟩
      · obtain ⟨ts2, hm, k2, hr⟩ := ih _ r h
        exact ⟨ts2, List.mem_cons_of_mem _ hm, k2, hr⟩

lemma dateRange_length (y m : ℕ) : (dateRange y m).length = daysInMonth y m * 24 := by
  simp [dateRange]

lemma dateRange_get? (y m i : ℕ) (h : i < daysInMonth y m * 24) :
    (dateRange y m).get? i = some (tsOfIndex y m i) := by
  simp [dateRange, List.get?_eq_getElem?, List.getElem?_map, List.getElem?_range h]

lemma generate_length (cfg : Config) (noise : ℕ → ℚ) :
    (generate cfg noise).length = daysInMonth cfg.year cfg.month * 24 := by
  rw [generate, generateFull, genAux_fst_length, dateRange_length]

lemma generate_get? (cfg : Config) (noise : ℕ → ℚ) (i : ℕ)
    (h : i < daysInMonth cfg.year cfg.month * 24) :
    (generate cfg noise).get? i =
      some ((step cfg noise (tsOfIndex cfg.year cfg.month i)
              (if 0 < cfg.random_pct then i else 0)).1) := by
  rw [generate, generateFull, genAux_get?, dateRange_get? _ _ _ h]
  simp

lemma mem_generate (cfg : Config) (noise : ℕ → ℚ) (r : Row) (h : r ∈ generate cfg noise) :
    ∃ ts ∈ dateRange cfg.year cfg.month, ∃ k, r = (step cfg noise ts k).1 :=
  mem_genAux cfg noise _ 0 r h

/-! ## Rounding lemmas -/

lemma roundHalfEven_nonneg (x : ℚ) (hx : 0 ≤ x) : 0 ≤ roundHalfEven x := by
  have hf : (0 : ℤ) ≤ ⌊x⌋ := Int.floor_nonneg.mpr hx
  unfold roundHalfEven
  split
  · exact hf
  · split
    · omega
    · split <;> omega

lemma round3_nonneg (x : ℚ) (hx : 0 ≤ x) : 0 ≤ round3 x := by
  unfold round3
  have h1 : (0 : ℚ) ≤ (roundHalfEven (x * 1000) : ℚ) := by
    exact_mod_cast roundHalfEven_nonneg _ (by positivity)
  positivity

lemma roundHalfEven_intCast (n : ℤ) : roundHalfEven (n : ℚ) = n := by
  unfold roundHalfEven
  simp [Int.floor_intCast]

lemma round3_eq_self (x : ℚ) (n : ℤ) (hx : x * 1000 = n) : round3 x = x := by
  unfold round3
  rw [hx, roundHalfEven_intCast, ← hx]
  ring

/-! ## The in-window invariant and bounds on the triangular profile -/

lemma secWindow (s e c : ℕ) (hs : s < 86400) (hc : c < 86400)
    (hin : (if s ≤ e then decide (s ≤ c) && decide (c < e)
            else decide (c ≥ s) || decide (c < e)) = true) :
    s ≤ (if c < s then c + 24 * 3600 else c) ∧
      (if c < s then c + 24 * 3600 else c) < (if e ≤ s then e + 24 * 3600 else e) := by
  split at hin <;>
    simp only [Bool.and_eq_true, Bool.or_eq_true, decide_eq_true_eq, ge_iff_le] at hin <;>
    split <;> split <;> omega

lemma window_inv (cfg : Config) (ts : Timestamp)
    (hop : inHours cfg.operating_start cfg.operating_end ts.timeOfDay = true)
    (hs : cfg.operating_start.toSec < 86400) (hh : ts.hour < 24) :
    cfg.operating_start.toSec ≤ curSecAdj cfg ts ∧ curSecAdj cfg ts < endSecAdj cfg := by
  have hc : ts.timeOfDay.toSec < 86400 := by
    simp only [Timestamp.timeOfDay, Time.toSec]
    omega
  have h := secWindow cfg.operating_start.toSec cfg.operating_end.toSec ts.timeOfDay.toSec
    hs hc (by unfold inHours at hop; exact hop)
  unfold curSecAdj endSecAdj
  exact h

lemma div_max_one_bounds (a b : ℚ) (h0 : 0 ≤ a) (hab : a ≤ b) :
    0 ≤ a / max b 1 ∧ a / max b 1 ≤ 1 := by
  have hb : (0 : ℚ) < max b 1 := lt_of_lt_of_le one_pos (le_max_right b 1)
  constructor
  · positivity
  · rw [div_le_one hb]
    exact le_trans hab (le_max_left b 1)

lemma interp_bounds (b p f : ℚ) (h0 : 0 ≤ f) (h1 : f ≤ 1) :
    min b p ≤ b + (p - b) * f ∧ b + (p - b) * f ≤ max b p := by
  rcases le_total b p with h | h
  · rw [min_eq_left h, max_eq_right h]
    constructor <;> nlinarith
  · rw [min_eq_right h, max_eq_left h]
    constructor <;> nlinarith

lemma triangularLoad_bounds (cfg : Config) (ts : Timestamp)
    (hop : inHours cfg.operating_start cfg.operating_end ts.timeOfDay = true)
    (hs : cfg.operating_start.toSec < 86400) (hh : ts.hour < 24) :
    min cfg.base_load cfg.peak_load ≤ triangularLoad cfg ts ∧
      triangularLoad cfg ts ≤ max cfg.base_load cfg.peak_load := by
  obtain ⟨h1, h2⟩ := window_inv cfg ts hop hs hh
  have hsc : (cfg.operating_start.toSec : ℚ) ≤ (curSecAdj cfg ts : ℚ) := by exact_mod_cast h1
  have hce : (curSecAdj cfg ts : ℚ) < (endSecAdj cfg : ℚ) := by exact_mod_cast h2
  simp only [triangularLoad]
  set s : ℚ := (cfg.operating_start.toSec : ℚ) with hsdef
  set e : ℚ := (endSecAdj cfg : ℚ) with hedef
  set c : ℚ := (curSecAdj cfg ts : ℚ) with hcdef
  split
  · rename_i hcm
    obtain ⟨hf0, hf1⟩ := div_max_one_bounds (c - s) ((s + e) / 2 - s)
      (by linarith) (by linarith)
    exact interp_bounds _ _ _ hf0 hf1
  · rename_i hcm
    push_neg at hcm
    obtain ⟨hf0, hf1⟩ := div_max_one_bounds (c - (s + e) / 2) (e - (s + e) / 2)
      (by linarith) (by linarith)
    have key := interp_bounds cfg.base_load cfg.peak_load
      (1 - (c - (s + e) / 2) / max (e - (s + e) / 2) 1) (by linarith) (by linarith)
    have heq : cfg.base_load + (cfg.peak_load - cfg.base_load) *
        (1 - (c - (s + e) / 2) / max (e - (s + e) / 2) 1) =
        cfg.peak_load - (cfg.peak_load - cfg.base_load) *
          ((c - (s + e) / 2) / max (e - (s + e) / 2) 1) := by ring
    rw [heq] at key
    exact key

lemma isOperating_inHours (cfg : Config) (ts : Timestamp)
    (h : isOperating cfg ts = true) :
    inHours cfg.operating_start cfg.operating_end ts.timeOfDay = true := by
  unfold isOperating at h
  exact (Bool.and_eq_true ..).mp h |>.2

lemma rawLoad_bounds (cfg : Config) (ts : Timestamp)
    (hop : isOperating cfg ts = true)
    (hs : cfg.operating_start.toSec < 86400) (hh : ts.hour < 24) :
    min cfg.base_load cfg.peak_load ≤ rawLoad cfg ts ∧
      rawLoad cfg ts ≤ max cfg.base_load cfg.peak_load := by
  unfold rawLoad
  rw [if_pos hop]
  exact triangularLoad_bounds cfg ts (isOperating_inHours cfg ts hop) hs hh

lemma rawLoad_nonneg (cfg : Config) (ts : Timestamp)
    (hb : 0 ≤ cfg.base_load) (hp : 0 ≤ cfg.peak_load)
    (hs : cfg.operating_start.toSec < 86400) (hh : ts.hour < 24) :
    0 ≤ rawLoad cfg ts := by
  unfold rawLoad
  split
  · rename_i hop
    have h := (triangularLoad_bounds cfg ts (isOperating_inHours cfg ts hop) hs hh).1
    exact le_trans (le_min hb hp) h
  · exact hb

lemma step_load_nonneg (cfg : Config) (noise : ℕ → ℚ) (ts : Timestamp) (k : ℕ)
    (hb : 0 ≤ cfg.base_load) (hp : 0 ≤ cfg.peak_load)
    (hs : cfg.operating_start.toSec < 86400) (hh : ts.hour < 24) :
    0 ≤ ((step cfg noise ts k).1).load_kW := by
  simp only [step]
  split
  · exact round3_nonneg _ (le_max_right _ _)
  · exact round3_nonneg _ (rawLoad_nonneg cfg ts hb hp hs hh)

/-! ## More helper lemmas -/

lemma generate_get?_inv (cfg : Config) (noise : ℕ → ℚ) (i : ℕ) (r : Row)
    (h : (generate cfg noise).get? i = some r) :
    i < daysInMonth cfg.year cfg.month * 24 ∧
      r = (step cfg noise (tsOfIndex cfg.year cfg.month i)
            (if 0 < cfg.random_pct then i else 0)).1 := by
  have hlt : i < (generate cfg noise).length := by
    by_contra hc
    push_neg at hc
    rw [List.get?_eq_none.mpr hc] at h
    exact Option.noConfusion h
  rw [generate_length] at hlt
  rw [generate_get? cfg noise i hlt] at h
  exact ⟨hlt, (Option.some.injEq .. ▸ h : _ = r).symm⟩

lemma step_fst_datetime (cfg : Config) (noise : ℕ → ℚ) (ts : Timestamp) (k : ℕ) :
    ((step cfg noise ts k).1).datetime = ts := by
  simp only [step]
  split <;> rfl

lemma step_fst_operating (cfg : Config) (noise : ℕ → ℚ) (ts : Timestamp) (k : ℕ) :
    ((step cfg noise ts k).1).operating = isOperating cfg ts := by
  simp only [step]
  split <;> rfl

lemma step_fst_load_of_not_pos (cfg : Config) (noise : ℕ → ℚ) (ts : Timestamp) (k : ℕ)
    (h : ¬ 0 < cfg.random_pct) :
    ((step cfg noise ts k).1).load_kW = round3 (rawLoad cfg ts) := by
  simp only [step]
  rw [if_neg h]
  rfl

lemma step_fst_load_round3 (cfg : Config) (noise : ℕ → ℚ) (ts : Timestamp) (k : ℕ) :
    ∃ x, ((step cfg noise ts k).1).load_kW = round3 x := by
  simp only [step]
  split
  · exact ⟨_, rfl⟩
  · exact ⟨_, rfl⟩

lemma genAux_noise_irrel (cfg : Config) (noise1 noise2 : ℕ → ℚ)
    (h : ¬ 0 < cfg.random_pct) :
    ∀ (l : List Timestamp) (k : ℕ), genAux cfg noise1 l k = genAux cfg noise2 l k := by
  intro l
  induction l with
  | nil => intro k; rfl
  | cons ts rest ih =>
      intro k
      simp only [genAux, step, if_neg h, ih]

lemma cast_endSecAdj (cfg : Config) :
    ((endSecAdj cfg : ℕ) : ℚ) =
      if cfg.operating_end.toSec ≤ cfg.operating_start.toSec
      then (cfg.operating_end.toSec : ℚ) + 86400 else (cfg.operating_end.toSec : ℚ) := by
  unfold endSecAdj
  split <;> push_cast <;> norm_num

lemma cast_curSecAdj (cfg : Config) (ts : Timestamp) :
    ((curSecAdj cfg ts : ℕ) : ℚ) =
      if ts.timeOfDay.toSec < cfg.operating_start.toSec
      then (ts.timeOfDay.toSec : ℚ) + 86400 else (ts.timeOfDay.toSec : ℚ) := by
  unfold curSecAdj
  split <;> push_cast <;> norm_num

lemma triangular_eq_spec (cfg : Config) (ts : Timestamp) :
    triangularLoad cfg ts = loadFormulaSpec cfg ts := by
  simp only [triangularLoad, loadFormulaSpec, cast_endSecAdj, cast_curSecAdj]

lemma triangular_at_open (cfg : Config) (ts : Timestamp)
    (h1 : cfg.operating_start.toSec ≤ curSecAdj cfg ts)
    (h2 : curSecAdj cfg ts < endSecAdj cfg)
    (hcur : curSecAdj cfg ts = cfg.operating_start.toSec) :
    triangularLoad cfg ts = cfg.base_load := by
  have hse : cfg.operating_start.toSec < endSecAdj cfg := hcur ▸ h2
  simp only [triangularLoad]
  rw [hcur, if_pos ?hc]
  case hc =>
    have : (cfg.operating_start.toSec : ℚ) ≤ (endSecAdj cfg : ℚ) := by
      exact_mod_cast le_of_lt hse
    linarith
  rw [sub_self, zero_div, mul_zero, add_zero]

lemma triangular_at_mid (cfg : Config) (ts : Timestamp)
    (h1 : cfg.operating_start.toSec ≤ curSecAdj cfg ts)
    (h2 : curSecAdj cfg ts < endSecAdj cfg)
    (hmid : 2 * curSecAdj cfg ts = cfg.operating_start.toSec + endSecAdj cfg) :
    triangularLoad cfg ts = cfg.peak_load := by
  have hgap : 2 ≤ endSecAdj cfg - cfg.operating_start.toSec := by omega
  simp only [triangularLoad]
  have hcq : (curSecAdj cfg ts : ℚ) =
      ((cfg.operating_start.toSec : ℚ) + (endSecAdj cfg : ℚ)) / 2 := by
    have h : ((2 * curSecAdj cfg ts : ℕ) : ℚ) =
        ((cfg.operating_start.toSec + endSecAdj cfg : ℕ) : ℚ) := by rw [hmid]
    push_cast at h
    linarith
  rw [hcq, if_pos le_rfl]
  have hgapq : (1 : ℚ) ≤ ((cfg.operating_start.toSec : ℚ) + (endSecAdj cfg : ℚ)) / 2 -
      (cfg.operating_start.toSec : ℚ) := by
    have hn : cfg.operating_start.toSec + 2 ≤ endSecAdj cfg := by omega
    have he : (cfg.operating_start.toSec : ℚ) + 2 ≤ (endSecAdj cfg : ℚ) := by
      exact_mod_cast hn
    linarith
  rw [max_eq_left (le_trans (by norm_num) hgapq)]
  rw [div_self (by linarith)]
  ring

lemma daysInMonth_pos (y m : ℕ) : 0 < daysInMonth y m := by
  unfold daysInMonth
  split
  · split <;> omega
  · split <;> omega

lemma tsOfIndex_succ (y m i : ℕ) (h : i + 1 < daysInMonth y m * 24) :
    tsOfIndex y m (i + 1) = nextHour (tsOfIndex y m i) := by
  simp only [tsOfIndex, nextHour]
  split
  · rename_i hlt
    simp only [Timestamp.mk.injEq, true_and]
    omega
  · rename_i hlt
    rw [if_pos (by omega)]
    simp only [Timestamp.mk.injEq, true_and]
    omega

lemma tsOfIndex_hour_lt (y m i : ℕ) : (tsOfIndex y m i).hour < 24 :=
  Nat.mod_lt _ (by norm_num)

lemma mem_dateRange_hour_lt (y m : ℕ) (ts : Timestamp) (h : ts ∈ dateRange y m) :
    ts.hour < 24 := by
  simp only [dateRange, List.mem_map, List.mem_range] at h
  obtain ⟨k, _, hk⟩ := h
  rw [← hk]
  exact tsOfIndex_hour_lt y m k

lemma round3_mul_1000 (x : ℚ) : ∃ n : ℤ, round3 x * 1000 = n := by
  refine ⟨roundHalfEven (x * 1000), ?_⟩
  unfold round3
  field_simp

/-! ## Claim theorems -/

/-- C2: every emitted record's `operating` flag is true exactly when the
weekday name of the timestamp is in `operatingDays` AND its time of day
passes the window test: `start ≤ t < end` when `start ≤ end` (start
inclusive, end exclusive), and `t ≥ start OR t < end` when `start > end`
(overnight). -/
theorem c2_operating_flag (cfg : Config) (noise : ℕ → ℚ) (i : ℕ) (r : Row)
    (hr : (generate cfg noise).get? i = some r) :
    r.operating = operatingSpec cfg r.datetime := by
  obtain ⟨hlt, hstep⟩ := generate_get?_inv cfg noise i r hr
  rw [hstep, step_fst_operating, step_fst_datetime]
  rfl

set_option maxRecDepth 100000 in
/-- C2 witness: in the default January 2024 run (window 08:00-18:00), the
record at 18:00 of Monday 2024-01-01 satisfies the theorem; the window test
is false at exactly 18:00 (end exclusive) and true at exactly 08:00 (start
inclusive). -/
theorem c2_witness :
    (generate cfgA noiseZero).get? 18 =
      some ⟨⟨2024, 1, 1, 18⟩, 2024, 1, 1, 18, "Monday", false, 50⟩ ∧
    (⟨⟨2024, 1, 1, 18⟩, 2024, 1, 1, 18, "Monday", false, 50⟩ : Row).operating =
      operatingSpec cfgA ⟨2024, 1, 1, 18⟩ ∧
    operatingSpec cfgA ⟨2024, 1, 1, 18⟩ = false ∧
    operatingSpec cfgA ⟨2024, 1, 1, 8⟩ = true :=
  ⟨by with_unfolding_all decide,
   c2_operating_flag cfgA noiseZero 18 _ (by with_unfolding_all decide),
   by decide, by decide⟩

set_option maxRecDepth 100000 in
/-- C5 as stated is false on the code: with `randomPercent = 0` and
`baseLoad = 0.0002` kW (a legal non-negative load), the non-operating hour
00:00 of 2024-01-01 is emitted with `loadKw = 0`, not `baseLoad`, because the
load is rounded to 3 decimal places before emission. -/
theorem c5_counterexample :
    ((generate cfgC noiseZero).get? 0).map Row.operating = some false ∧
    ((generate cfgC noiseZero).get? 0).map Row.load_kW = some 0 ∧
    cfgC.random_pct = 0 ∧ cfgC.base_load ≠ 0 := by
  with_unfolding_all decide

/-- C5 amended: when `randomPercent = 0`, every record with `operating =
false` has `loadKw` equal to `baseLoad` rounded to 3 decimal places — hence
exactly equal to `baseLoad` whenever `baseLoad` is an integer multiple of
0.001. -/
theorem c5_nonoperating_load (cfg : Config) (noise : ℕ → ℚ) (i : ℕ) (r : Row)
    (hr : (generate cfg noise).get? i = some r)
    (hpct : cfg.random_pct = 0) (hop : r.operating = false) :
    r.load_kW = round3 cfg.base_load ∧
      (round3 cfg.base_load = cfg.base_load → r.load_kW = cfg.base_load) := by
  obtain ⟨hlt, hstep⟩ := generate_get?_inv cfg noise i r hr
  have hnp : ¬ 0 < cfg.random_pct := by rw [hpct]; exact lt_irrefl 0
  have hld : r.load_kW = round3 (rawLoad cfg (tsOfIndex cfg.year cfg.month i)) := by
    rw [hstep]
    exact step_fst_load_of_not_pos cfg noise _ _ hnp
  have hopts : isOperating cfg (tsOfIndex cfg.year cfg.month i) = false := by
    rw [hstep, step_fst_operating] at hop
    exact hop
  have hraw : rawLoad cfg (tsOfIndex cfg.year cfg.month i) = cfg.base_load := by
    simp [rawLoad, hopts]
  rw [hld, hraw]
  exact ⟨rfl, fun hq => hq⟩

set_option maxRecDepth 40000 in
/-- C5 witness: in the February 2024 run (base 10 kW, a multiple of 0.001),
the non-operating record at hour 0 of 2024-02-01 has `loadKw` exactly the
base load. -/
theorem c5_witness :
    (generate cfgFeb noiseZero).get? 0 =
      some ⟨⟨2024, 2, 1, 0⟩, 2024, 2, 1, 0, "Thursday", false, 10⟩ ∧
    (⟨⟨2024, 2, 1, 0⟩, 2024, 2, 1, 0, "Thursday", false, 10⟩ : Row).load_kW =
      cfgFeb.base_load :=
  ⟨by with_unfolding_all decide,
   (c5_nonoperating_load cfgFeb noiseZero 0 _ (by with_unfolding_all decide) rfl rfl).2
     (by with_unfolding_all decide)⟩

/-- C6: with non-negative base and peak loads (and a valid wall-clock start
time), every emitted record has `loadKw ≥ 0`, regardless of the noise draws:
the noisy load is clamped at 0, and the noiseless load lies between the two
configured loads. -/
theorem c6_nonneg (cfg : Config) (noise : ℕ → ℚ) (i : ℕ) (r : Row)
    (hr : (generate cfg noise).get? i = some r)
    (hb : 0 ≤ cfg.base_load) (hp : 0 ≤ cfg.peak_load)
    (hs : cfg.operating_start.toSec < 86400) :
    0 ≤ r.load_kW := by
  obtain ⟨hlt, hstep⟩ := generate_get?_inv cfg noise i r hr
  rw [hstep]
  exact step_load_nonneg cfg noise _ _ hb hp hs (tsOfIndex_hour_lt _ _ _)

set_option maxRecDepth 100000 in
/-- C6 witness: with 5 percent noise and a huge negative draw (-1000 standard
deviations), the operating record at 08:00 of 2024-01-01 is clamped to 0,
which is non-negative. -/
theorem c6_witness :
    (0 : ℚ) ≤ cfgP.base_load ∧ (0 : ℚ) ≤ cfgP.peak_load ∧
    (generate cfgP noiseNegBig).get? 8 =
      some ⟨⟨2024, 1, 1, 8⟩, 2024, 1, 1, 8, "Monday", true, 0⟩ ∧
    (0 : ℚ) ≤ (⟨⟨2024, 1, 1, 8⟩, 2024, 1, 1, 8, "Monday", true, 0⟩ : Row).load_kW :=
  ⟨by decide, by decide, by with_unfolding_all decide,
   c6_nonneg cfgP noiseNegBig 8 _ (by with_unfolding_all decide)
     (by decide) (by decide) (by decide)⟩

/-- C9: every emitted record's `loadKw` is a value rounded to 3 decimal
places: `loadKw * 1000` is an integer. -/
theorem c9_round3 (cfg : Config) (noise : ℕ → ℚ) (i : ℕ) (r : Row)
    (hr : (generate cfg noise).get? i = some r) :
    ∃ n : ℤ, r.load_kW * 1000 = n := by
  obtain ⟨hlt, hstep⟩ := generate_get?_inv cfg noise i r hr
  obtain ⟨x, hx⟩ := step_fst_load_round3 cfg noise (tsOfIndex cfg.year cfg.month i)
    (if 0 < cfg.random_pct then i else 0)
  rw [hstep, hx]
  exact round3_mul_1000 x

set_option maxRecDepth 100000 in
/-- C9 witness: the first record of the default run has `loadKw * 1000`
integral. -/
theorem c9_witness :
    (generate cfgA noiseZero).get? 0 =
      some ⟨⟨2024, 1, 1, 0⟩, 2024, 1, 1, 0, "Monday", false, 50⟩ ∧
    ∃ n : ℤ,
      (⟨⟨2024, 1, 1, 0⟩, 2024, 1, 1, 0, "Monday", false, 50⟩ : Row).load_kW * 1000 = n :=
  ⟨by with_unfolding_all decide,
   c9_round3 cfgA noiseZero 0 _ (by with_unfolding_all decide)⟩

/-- C10: for every hour of the month that is operating, the pre-noise load
lies between `min baseLoad peakLoad` and `max baseLoad peakLoad` inclusive —
including when `peakLoad < baseLoad` and in the overnight-wrapping case. -/
theorem c10_bounds (cfg : Config) (ts : Timestamp)
    (hts : ts ∈ dateRange cfg.year cfg.month)
    (hop : isOperating cfg ts = true)
    (hs : cfg.operating_start.toSec < 86400) :
    min cfg.base_load cfg.peak_load ≤ rawLoad cfg ts ∧
      rawLoad cfg ts ≤ max cfg.base_load cfg.peak_load :=
  rawLoad_bounds cfg ts hop hs (mem_dateRange_hour_lt _ _ ts hts)

set_option maxRecDepth 100000 in
/-- C10 witness: the operating hour 23:00 of 2024-01-01 in the overnight
window 22:00-06:00 has its pre-noise load between base and peak. -/
theorem c10_witness :
    (⟨2024, 1, 1, 23⟩ : Timestamp) ∈ dateRange cfgN.year cfgN.month ∧
    isOperating cfgN ⟨2024, 1, 1, 23⟩ = true ∧
    min cfgN.base_load cfgN.peak_load ≤ rawLoad cfgN ⟨2024, 1, 1, 23⟩ ∧
    rawLoad cfgN ⟨2024, 1, 1, 23⟩ ≤ max cfgN.base_load cfgN.peak_load := by
  have hm : (⟨2024, 1, 1, 23⟩ : Timestamp) ∈ dateRange cfgN.year cfgN.month := by decide
  have hop : isOperating cfgN ⟨2024, 1, 1, 23⟩ = true := by decide
  have h := c10_bounds cfgN ⟨2024, 1, 1, 23⟩ hm hop (by decide)
  exact ⟨hm, hop, h.1, h.2⟩

set_option maxRecDepth 100000 in
/-- C1 as stated is false on the code: with `randomPercent = 0` and
`baseLoad = 0.0002` kW, the operating record at the window-opening hour
08:00 of Monday 2024-01-01 (window 08:00-18:00) is emitted with
`loadKw = 0`, not `baseLoad`: the emitted value is the pre-noise load
rounded to 3 decimal places. -/
theorem c1_counterexample :
    ((generate cfgC noiseZero).get? 8).map Row.operating = some true ∧
    ((generate cfgC noiseZero).get? 8).map Row.hour = some 8 ∧
    cfgC.operating_start = ⟨8, 0, 0⟩ ∧ cfgC.random_pct = 0 ∧
    ((generate cfgC noiseZero).get? 8).map Row.load_kW = some 0 ∧
    cfgC.base_load ≠ 0 := by
  with_unfolding_all decide

/-- C1 amended: for every operating record the pre-noise load follows the
claimed triangular formula (`loadFormulaSpec`); with `randomPercent = 0` the
emitted `loadKw` is that value rounded to 3 decimal places, so at the
window-opening hour it equals `round3 baseLoad` and at an hour falling
exactly on the window midpoint it equals `round3 peakLoad` (hence exactly
`baseLoad` / `peakLoad` whenever those are multiples of 0.001). -/
theorem c1_triangular (cfg : Config) (noise : ℕ → ℚ) (i : ℕ) (r : Row)
    (hr : (generate cfg noise).get? i = some r)
    (hs : cfg.operating_start.toSec < 86400)
    (hop : r.operating = true) :
    rawLoad cfg r.datetime = loadFormulaSpec cfg r.datetime ∧
    (cfg.random_pct = 0 →
      r.load_kW = round3 (loadFormulaSpec cfg r.datetime) ∧
      (curSecAdj cfg r.datetime = cfg.operating_start.toSec →
        r.load_kW = round3 cfg.base_load) ∧
      (2 * curSecAdj cfg r.datetime = cfg.operating_start.toSec + endSecAdj cfg →
        r.load_kW = round3 cfg.peak_load)) := by
  obtain ⟨hlt, hstep⟩ := generate_get?_inv cfg noise i r hr
  have hdt : r.datetime = tsOfIndex cfg.year cfg.month i := by
    rw [hstep, step_fst_datetime]
  have hopts : isOperating cfg (tsOfIndex cfg.year cfg.month i) = true := by
    rw [hstep, step_fst_operating] at hop
    exact hop
  have hh : (tsOfIndex cfg.year cfg.month i).hour < 24 := tsOfIndex_hour_lt _ _ _
  have hinv := window_inv cfg (tsOfIndex cfg.year cfg.month i)
    (isOperating_inHours cfg _ hopts) hs hh
  have hraw : rawLoad cfg (tsOfIndex cfg.year cfg.month i) =
      triangularLoad cfg (tsOfIndex cfg.year cfg.month i) := by
    unfold rawLoad
    rw [if_pos hopts]
  rw [hdt]
  refine ⟨by rw [hraw, triangular_eq_spec], fun hpct => ?_⟩
  have hnp : ¬ 0 < cfg.random_pct := by rw [hpct]; exact lt_irrefl 0
  have hld : r.load_kW = round3 (rawLoad cfg (tsOfIndex cfg.year cfg.month i)) := by
    rw [hstep]
    exact step_fst_load_of_not_pos cfg noise _ _ hnp
  refine ⟨by rw [hld, hraw, triangular_eq_spec], fun hcur => ?_, fun hmid => ?_⟩
  · rw [hld, hraw, triangular_at_open cfg _ hinv.1 hinv.2 hcur]
  · rw [hld, hraw, triangular_at_mid cfg _ hinv.1 hinv.2 hmid]

set_option maxRecDepth 100000 in
/-- C1 witness: in the default run (base 50, peak 150, window 08:00-18:00,
no noise), the record at the window-opening hour 08:00 of 2024-01-01 has
`loadKw = round3 50 = 50` and the record at the midpoint hour 13:00 has
`loadKw = round3 150 = 150`. -/
theorem c1_witness :
    (generate cfgA noiseZero).get? 8 =
      some ⟨⟨2024, 1, 1, 8⟩, 2024, 1, 1, 8, "Monday", true, 50⟩ ∧
    (⟨⟨2024, 1, 1, 8⟩, 2024, 1, 1, 8, "Monday", true, 50⟩ : Row).load_kW =
      round3 cfgA.base_load ∧
    (generate cfgA noiseZero).get? 13 =
      some ⟨⟨2024, 1, 1, 13⟩, 2024, 1, 1, 13, "Monday", true, 150⟩ ∧
    (⟨⟨2024, 1, 1, 13⟩, 2024, 1, 1, 13, "Monday", true, 150⟩ : Row).load_kW =
      round3 cfgA.peak_load :=
  ⟨by with_unfolding_all decide,
   ((c1_triangular cfgA noiseZero 8 _ (by with_unfolding_all decide)
      (by decide) rfl).2 rfl).2.1 (by decide),
   by with_unfolding_all decide,
   ((c1_triangular cfgA noiseZero 13 _ (by with_unfolding_all decide)
      (by decide) rfl).2 rfl).2.2 (by decide)⟩

/-- C3: for a valid year (2000-2100) and month (1-12), the generated
sequence has exactly `daysInMonth * 24` records; record `i` carries the
`i`-th hourly timestamp (so hours are strictly increasing with no
duplicates), consecutive records differ by exactly one hour, the first
record is day 1 hour 0 and the last is the last day's hour 23. -/
theorem c3_coverage (cfg : Config) (noise : ℕ → ℚ)
    (hy1 : 2000 ≤ cfg.year) (hy2 : cfg.year ≤ 2100)
    (hm1 : 1 ≤ cfg.month) (hm2 : cfg.month ≤ 12) :
    (generate cfg noise).length = daysInMonth cfg.year cfg.month * 24 ∧
    (∀ i r, (generate cfg noise).get? i = some r →
      r.datetime = tsOfIndex cfg.year cfg.month i ∧
      (r.datetime.day - 1) * 24 + r.datetime.hour = i) ∧
    (∀ i r r2, (generate cfg noise).get? i = some r →
      (generate cfg noise).get? (i + 1) = some r2 →
      r2.datetime = nextHour r.datetime) ∧
    ((generate cfg noise).get? 0).map Row.datetime = some ⟨cfg.year, cfg.month, 1, 0⟩ ∧
    ((generate cfg noise).get? (daysInMonth cfg.year cfg.month * 24 - 1)).map Row.datetime =
      some ⟨cfg.year, cfg.month, daysInMonth cfg.year cfg.month, 23⟩ := by
  have hD := daysInMonth_pos cfg.year cfg.month
  refine ⟨generate_length cfg noise, ?_, ?_, ?_, ?_⟩
  · intro i r hr
    obtain ⟨hlt, hstep⟩ := generate_get?_inv cfg noise i r hr
    have hdt : r.datetime = tsOfIndex cfg.year cfg.month i := by
      rw [hstep, step_fst_datetime]
    refine ⟨hdt, ?_⟩
    rw [hdt]
    simp only [tsOfIndex]
    omega
  · intro i r r2 h1 h2
    obtain ⟨hlt1, hs1⟩ := generate_get?_inv cfg noise i r h1
    obtain ⟨hlt2, hs2⟩ := generate_get?_inv cfg noise (i + 1) r2 h2
    rw [hs1, hs2, step_fst_datetime, step_fst_datetime]
    exact tsOfIndex_succ _ _ i hlt2
  · rw [generate_get? cfg noise 0 (by omega)]
    simp only [Option.map_some', step_fst_datetime, tsOfIndex, Timestamp.mk.injEq,
      Option.some.injEq]
  · rw [generate_get? cfg noise _ (by omega)]
    simp only [Option.map_some', step_fst_datetime, tsOfIndex, Timestamp.mk.injEq,
      Option.some.injEq, true_and]
    omega

/-- C3 witness: February 2024 (leap year) yields 29 × 24 = 696 records,
starting at 2024-02-01 00:00 and ending at 2024-02-29 23:00. -/
theorem c3_witness :
    (generate cfgFeb noiseZero).length = 696 ∧
    ((generate cfgFeb noiseZero).get? 0).map Row.datetime = some ⟨2024, 2, 1, 0⟩ ∧
    ((generate cfgFeb noiseZero).get? 695).map Row.datetime = some ⟨2024, 2, 29, 23⟩ := by
  have h := c3_coverage cfgFeb noiseZero (by decide) (by decide) (by decide) (by decide)
  exact ⟨by rw [h.1]; decide, h.2.2.2.1, h.2.2.2.2⟩

/-- C4: the run is a pure function of the configuration and the seed-determined
draw stream (identical inputs and stream give identical output); when
`randomPercent > 0` the random source is advanced exactly once per hour, in
chronological order (record `i` uses draw `i`), ending at one draw per hour of
the month; when `randomPercent = 0` no draw is consumed and the output does not
depend on the stream at all. -/
theorem c4_determinism (cfg : Config) (noise1 noise2 : ℕ → ℚ) :
    (noise1 = noise2 → generateFull cfg noise1 = generateFull cfg noise2) ∧
    (0 < cfg.random_pct →
      (generateFull cfg noise1).2 = daysInMonth cfg.year cfg.month * 24 ∧
      ∀ i r, (generate cfg noise1).get? i = some r →
        r = (step cfg noise1 (tsOfIndex cfg.year cfg.month i) i).1) ∧
    (cfg.random_pct = 0 →
      generateFull cfg noise1 = generateFull cfg noise2 ∧
      (generateFull cfg noise1).2 = 0) := by
  refine ⟨fun h => by rw [h], fun hpos => ⟨?_, ?_⟩, fun hz => ?_⟩
  · rw [generateFull, genAux_snd, dateRange_length, if_pos hpos, Nat.zero_add]
  · intro i r hr
    obtain ⟨hlt, hstep⟩ := generate_get?_inv cfg noise1 i r hr
    rw [hstep, if_pos hpos]
  · have hnp : ¬ 0 < cfg.random_pct := by rw [hz]; exact lt_irrefl 0
    constructor
    · rw [generateFull, generateFull, genAux_noise_irrel cfg noise1 noise2 hnp]
    · rw [generateFull, genAux_snd, if_neg hnp]

/-- C4 witness: with 5 percent noise the January 2024 run consumes 31 × 24
draws; with zero noise the output is identical under two different streams
and consumes no draw. -/
theorem c4_witness :
    (generateFull cfgP noiseZero).2 = 744 ∧
    generateFull cfgA noiseZero = generateFull cfgA noiseOne ∧
    (generateFull cfgA noiseZero).2 = 0 := by
  have h1 := ((c4_determinism cfgP noiseZero noiseOne).2.1 (by decide)).1
  have h2 := (c4_determinism cfgA noiseZero noiseOne).2.2 rfl
  exact ⟨by rw [h1]; decide, h2.1, h2.2⟩

set_option maxRecDepth 100000 in
/-- C7 as stated is false on the code: with `operating_end = operating_start`
(08:00, all seven days operating) the hour 12:00 of Monday 2024-01-01 — an
hour on an operating day, inside the claimed full-day wrapped window — is
emitted with `operating = false`: equality takes the non-wrapping branch,
whose start-inclusive end-exclusive interval is empty. -/
theorem c7_counterexample :
    cfg7.operating_end = cfg7.operating_start ∧
    ((generate cfg7 noiseZero).get? 12).map Row.weekday = some "Monday" ∧
    "Monday" ∈ cfg7.weekdays ∧
    ((generate cfg7 noiseZero).get? 12).map Row.operating = some false := by
  with_unfolding_all decide

/-- C7 amended: a schedule with `operatingEnd < operatingStart` (strictly)
represents the overnight window wrapping past midnight — the in-window test
is `t ≥ start OR t < end`; when `operatingEnd = operatingStart` the window
is empty: no hour of any day is operating. -/
theorem c7_wrap (cfg : Config) (ts : Timestamp) :
    (cfg.operating_end.toSec < cfg.operating_start.toSec →
      inHours cfg.operating_start cfg.operating_end ts.timeOfDay =
        (decide (ts.timeOfDay.toSec ≥ cfg.operating_start.toSec) ||
          decide (ts.timeOfDay.toSec < cfg.operating_end.toSec))) ∧
    (cfg.operating_end.toSec = cfg.operating_start.toSec →
      isOperating cfg ts = false) := by
  constructor
  · intro h
    unfold inHours
    rw [if_neg (by omega)]
  · intro h
    unfold isOperating inHours
    rw [if_pos (by omega), h]
    rcases Nat.lt_or_ge ts.timeOfDay.toSec cfg.operating_start.toSec with hlt | hge
    · simp [Nat.not_le.mpr hlt]
    · simp [Nat.not_lt.mpr hge]

/-- C7 witness: the overnight window 22:00-06:00 satisfies the wrapped test
at 23:00, and the degenerate window 08:00-08:00 makes 12:00 non-operating. -/
theorem c7_witness :
    cfgN.operating_end.toSec < cfgN.operating_start.toSec ∧
    inHours cfgN.operating_start cfgN.operating_end
        (⟨2024, 1, 1, 23⟩ : Timestamp).timeOfDay =
      (decide ((⟨2024, 1, 1, 23⟩ : Timestamp).timeOfDay.toSec ≥
          cfgN.operating_start.toSec) ||
        decide ((⟨2024, 1, 1, 23⟩ : Timestamp).timeOfDay.toSec <
          cfgN.operating_end.toSec)) ∧
    cfg7.operating_end.toSec = cfg7.operating_start.toSec ∧
    isOperating cfg7 ⟨2024, 1, 1, 12⟩ = false :=
  ⟨by decide, (c7_wrap cfgN ⟨2024, 1, 1, 23⟩).1 (by decide), by decide,
   (c7_wrap cfg7 ⟨2024, 1, 1, 12⟩).2 (by decide)⟩

/-- C8: a configuration with month outside 1-12, year outside 2000-2100, a
negative load, or a negative noise percent is rejected by the input layer
with a typed error before the hour-by-hour loop: the pipeline returns
`Except.error` and no record sequence at all. -/
theorem c8_validation (rc : RawConfig) (noise : ℕ → ℚ)
    (h : rc.month < 1 ∨ 12 < rc.month ∨ rc.year < 2000 ∨ 2100 < rc.year ∨
      rc.base_load < 0 ∨ rc.peak_load < 0 ∨ rc.random_pct < 0) :
    ∃ err, generateChecked rc noise = Except.error err := by
  unfold generateChecked validate
  split_ifs <;> first
    | exact ⟨_, rfl⟩
    | (exfalso
       push_neg at *
       rcases h with h | h | h | h | h | h | h <;> first | omega | linarith)

/-- C8 witness: month 13 is rejected with a typed error. -/
theorem c8_witness :
    (rcBadMonth.month < 1 ∨ 12 < rcBadMonth.month ∨ rcBadMonth.year < 2000 ∨
      2100 < rcBadMonth.year ∨ rcBadMonth.base_load < 0 ∨
      rcBadMonth.peak_load < 0 ∨ rcBadMonth.random_pct < 0) ∧
    ∃ err, generateChecked rcBadMonth noiseZero = Except.error err :=
  ⟨by decide, c8_validation rcBadMonth noiseZero (by decide)⟩

end LoadModel
